import Mathlib

/-!
Shallow embedding of `dependency-retriever/main.py`, a single-threaded
crawler that walks a paginated "dependents" listing, extracts one record
per row, stores each record in a SQLite table, and follows the "Next"
link until none remains.

Modelling conventions:
* HTML parsing by BeautifulSoup is abstracted at the soup level: a fetched
  response carries the already-parsed `Page` (rows, badges, the optional
  "Next" anchor) instead of raw markup.  Each DOM query of the source
  (`find`, `find_all`) becomes a lookup on that structure.
* Python exceptions are modelled with `Except CrawlError`.  The error
  classes follow the design taxonomy: a raised `requests` connection
  error is `networkError`; any structural extraction fault
  (`AttributeError` on a missing tag, the `assert False` in
  `Crawler._authority`, a `ValueError` from unpacking or from
  `locale.atoi`) is `extractionError`; a SQLite operational fault is
  `persistenceError`.
* Side effects thread explicitly: the SQLite database is a value, the
  crawler's mutable `self._url` is passed as `Option String`, and the
  unbounded `while` loop takes fuel.  `time.sleep` has no observable
  effect and is omitted.
-/

/-- Error taxonomy of the design: fetch, extraction and store faults. -/
inductive CrawlError where
  | networkError
  | extractionError
  | persistenceError
deriving Repr, DecidableEq

namespace locale

/-- Model of `locale.delocalize` under `en_US.UTF-8`: the thousands
separator "," is removed (the decimal point "." is already "."). -/
def delocalize (s : String) : String :=
  String.mk (s.data.filter (fun c => c ≠ ','))

/-- Digit-string parsing: a nonempty all-digit character list denotes a
natural number, anything else is rejected. -/
def parseDigits (cs : List Char) : Option Nat :=
  if cs.isEmpty then none
  else if cs.all Char.isDigit then
    some (cs.foldl (fun acc c => acc * 10 + (c.toNat - 48)) 0)
  else none

/-- Model of Python `int(...)` on an already-stripped string: an optional
ASCII sign followed by decimal digits. -/
def parseInt (s : String) : Option Int :=
  match s.data with
  | '-' :: cs => (parseDigits cs).map (fun n => -(Int.ofNat n))
  | '+' :: cs => (parseDigits cs).map (fun n => Int.ofNat n)
  | cs => (parseDigits cs).map (fun n => Int.ofNat n)

/-- Model of `locale.atoi`: `int(delocalize(s))`; a `ValueError` is an
extraction fault in the design taxonomy. -/
def atoi (s : String) : Except CrawlError Int :=
  match parseInt (delocalize s) with
  | some n => Except.ok n
  | none => Except.error CrawlError.extractionError

end locale

/-- Model of Python `str.strip()`: remove leading and trailing
whitespace. -/
def strip (s : String) : String :=
  String.mk (((s.data.dropWhile Char.isWhitespace).reverse.dropWhile
    Char.isWhitespace).reverse)

/-- The sole entity: one row of the dependents listing. -/
structure Repository where
  authority : String
  name : String
  num_stars : Int
  num_forks : Int
deriving Repr, DecidableEq

/-- One in-memory SQLite database: which tables exist, and the contents of
the `repositories` table in insertion order. -/
structure Database where
  tables : List String
  rows : List Repository
deriving Repr, DecidableEq

/-- A freshly created (or freshly connected, previously empty) database
file: no tables, no rows. -/
def Database.empty : Database := { tables := [], rows := [] }

/-- Model of SQLite `create table t (...)`: an `OperationalError` is
raised when the table already exists (the source does not use
`if not exists`). -/
def Database.createTable (db : Database) (t : String) : Except CrawlError Database :=
  if t ∈ db.tables then Except.error CrawlError.persistenceError
  else Except.ok { db with tables := t :: db.tables }

/-- The `Storage` object: its connected database and whether `close` has
been called on the connection. -/
structure Storage where
  db : Database
  closed : Bool
deriving Repr, DecidableEq

/-- Table name `Storage.TB` of the source. -/
def Storage.TB : String := "repositories"

/-- Model of `Storage.__init__`: connect to the database at the given
location and `create table repositories (authority, name, num_stars,
num_forks)` unconditionally. -/
def Storage.init (db : Database) : Except CrawlError Storage :=
  match db.createTable Storage.TB with
  | Except.error e => Except.error e
  | Except.ok db => Except.ok { db := db, closed := false }

/-- Model of `Storage.store`: insert one row and commit. -/
def Storage.store (s : Storage) (repo : Repository) : Storage :=
  { s with db := { s.db with rows := s.db.rows ++ [repo] } }

/-- Model of `Storage.close`: close the connection. -/
def Storage.close (s : Storage) : Storage :=
  { s with closed := true }

/-- An anchor tag as the extractor sees it: its `data-hovercard-type`
attribute and its text. -/
structure Link where
  hovercardType : String
  text : String
deriving Repr, DecidableEq

/-- One `Box-row` block: the links of its `f5 color-fg-muted` metadata
block (`none` when that block is absent), and the texts of its
`color-fg-muted text-bold pl-3` badge elements in document order. -/
structure Row where
  meta : Option (List Link)
  badges : List String
deriving Repr, DecidableEq

/-- The "Next" anchor: its `href` attribute, `none` when absent. -/
structure NextTag where
  href : Option String
deriving Repr, DecidableEq

/-- A parsed page: its `Box-row` blocks in document order and the
optional `Next` control. -/
structure Page where
  rows : List Row
  nextTag : Option NextTag
deriving Repr, DecidableEq

/-- What the network does for one URL: either the connection fails
(`requests.get` raises) or an HTTP response arrives. -/
inductive FetchResult where
  | failure
  | response (status_code : Nat) (text : Page)
deriving Repr, DecidableEq

/-- A network environment: the outcome of one GET per URL. -/
abbrev Net := String → FetchResult

/-- An HTTP response: its status code and its body, carried at the soup
level (the `BeautifulSoup(response.text, "html.parser")` step of the
source is the identity here). -/
structure Response where
  status_code : Nat
  text : Page
deriving Repr, DecidableEq

namespace requests

/-- Model of `requests.get(url)`: a connection failure raises (a
`networkError` in the design taxonomy); otherwise the response object is
returned whatever its status code — the source never inspects
`status_code` and never calls `raise_for_status`. -/
def get (net : Net) (url : String) : Except CrawlError Response :=
  match net url with
  | FetchResult.failure => Except.error CrawlError.networkError
  | FetchResult.response code body => Except.ok { status_code := code, text := body }

end requests

namespace Crawler

/-- Model of `Crawler._authority`: prefer the organization link, fall
back to the user link; the `assert False` branch is the unrecoverable
extraction fault of the design. -/
def authority (org_tag user_tag : Option Link) : Except CrawlError String :=
  match org_tag with
  | some t => Except.ok t.text
  | none =>
    match user_tag with
    | some t => Except.ok t.text
    | none => Except.error CrawlError.extractionError

/-- The body of the `for row in soup.find_all(class_="Box-row")` loop of
`Crawler._parse`, per row: locate the metadata block, resolve the
authority, read the repository name, unpack exactly two badges, parse
both counts, and assemble the record. -/
def parseRow (row : Row) : Except CrawlError Repository :=
  match row.meta with
  | none => Except.error CrawlError.extractionError
  | some meta =>
    match authority (meta.find? (fun l => l.hovercardType == "organization"))
                    (meta.find? (fun l => l.hovercardType == "user")) with
    | Except.error e => Except.error e
    | Except.ok auth =>
      match meta.find? (fun l => l.hovercardType == "repository") with
      | none => Except.error CrawlError.extractionError
      | some repoTag =>
        match row.badges with
        | [star_tag, fork_tag] =>
          match locale.atoi (strip star_tag) with
          | Except.error e => Except.error e
          | Except.ok num_stars =>
            match locale.atoi (strip fork_tag) with
            | Except.error e => Except.error e
            | Except.ok num_forks =>
              Except.ok {
                authority := auth,
                name := repoTag.text,
                num_stars := num_stars,
                num_forks := num_forks }
        | _ => Except.error CrawlError.extractionError

/-- The row loop of `Crawler._parse`: each extracted record is handed to
`Storage.store` immediately; the first faulty row raises, keeping the
records stored so far. -/
def storeRows (storage : Storage) (rows : List Row) : Storage × Option CrawlError :=
  match rows with
  | [] => (storage, none)
  | row :: rest =>
    match parseRow row with
    | Except.error e => (storage, some e)
    | Except.ok repo => storeRows (storage.store repo) rest

/-- Model of `Crawler._after_crawl`: clear the cursor when the `Next`
anchor is absent or has no `href` attribute, otherwise set the cursor to
the `href` value verbatim. -/
def afterCrawl (next_tag : Option NextTag) : Option String :=
  match next_tag with
  | none => none
  | some t =>
    match t.href with
    | none => none
    | some next_url => some next_url

/-- Model of `Crawler._crawlable`: `isinstance(self._url, str)`. -/
def crawlable (url : Option String) : Bool :=
  url.isSome

/-- Model of `Crawler._parse`: GET the URL, walk the rows storing each
record, then determine the next cursor from the `Next` control.  The
returned storage keeps every record stored before a fault. -/
def parse (net : Net) (storage : Storage) (url : String) :
    Storage × Except CrawlError (Option String) :=
  match requests.get net url with
  | Except.error e => (storage, Except.error e)
  | Except.ok response =>
    match storeRows storage response.text.rows with
    | (storage, some e) => (storage, Except.error e)
    | (storage, none) => (storage, Except.ok (afterCrawl response.text.nextTag))

/-- Outcome of a fuelled run of `Crawler.crawl`: normal pagination
exhaustion, an uncaught propagating fault, or fuel ran out while the
source loop would still be running. -/
inductive CrawlResult where
  | done
  | fault (e : CrawlError)
  | outOfFuel
deriving Repr, DecidableEq

/-- Model of `Crawler.crawl`: `while self._crawlable(): self._parse(...)`
followed by `self._storage.close()`.  The loop guard `_crawlable`
(see `crawlable`) holds exactly in the `some` branch of the match on the
cursor.  A raised error propagates out of the loop without reaching the
close call.  The `_wait` sleep has no observable effect and is omitted. -/
def crawl (net : Net) : Nat → Option String → Storage → Storage × CrawlResult
  | fuel, url, storage =>
    match url with
    | none => (storage.close, CrawlResult.done)
    | some u =>
      match fuel with
      | 0 => (storage, CrawlResult.outOfFuel)
      | fuel + 1 =>
        match parse net storage u with
        | (storage, Except.error e) => (storage, CrawlResult.fault e)
        | (storage, Except.ok next) => crawl net fuel next storage

/-- The successive values of the cursor `self._url` along a fuelled run,
starting from the initial value and ending at the value that stops the
loop (or at the last value reached when fuel or a fault stops the
model). -/
def crawlTrace (net : Net) : Nat → Option String → Storage → List (Option String)
  | fuel, url, storage =>
    url :: match url with
    | none => []
    | some u =>
      match fuel with
      | 0 => []
      | fuel + 1 =>
        match parse net storage u with
        | (_, Except.error _) => []
        | (storage, Except.ok next) => crawlTrace net fuel next storage

end Crawler

/-! Helper lemmas shared by the claim theorems. -/

lemma String.mk_data (l : List Char) : (String.mk l).data = l := rfl

lemma delocalize_data (s : String) :
    (locale.delocalize s).data = s.data.filter (fun c => c ≠ ',') := rfl

lemma parseInt_nonneg (s : String) (hs : '-' ∉ s.data) (n : Int)
    (h : locale.parseInt s = some n) : 0 ≤ n := by
  unfold locale.parseInt at h
  split at h
  next cs heq =>
    exact absurd (heq ▸ List.mem_cons_self '-' cs) hs
  next cs heq =>
    rcases Option.map_eq_some'.mp h with ⟨m, _, rfl⟩
    exact Int.ofNat_nonneg m
  next =>
    rcases Option.map_eq_some'.mp h with ⟨m, _, rfl⟩
    exact Int.ofNat_nonneg m

lemma atoi_nonneg (s : String) (hs : '-' ∉ s.data) (n : Int)
    (h : locale.atoi s = Except.ok n) : 0 ≤ n := by
  unfold locale.atoi at h
  split at h
  case _ m hm =>
    cases h
    refine parseInt_nonneg _ (fun hmem => hs ?_) _ hm
    rw [delocalize_data] at hmem
    exact List.mem_of_mem_filter hmem
  · cases h

lemma mem_of_mem_strip (c : Char) (s : String) (h : c ∈ (strip s).data) :
    c ∈ s.data := by
  unfold strip at h
  rw [String.mk_data] at h
  have h1 := (List.dropWhile_sublist Char.isWhitespace).subset (List.mem_reverse.mp h)
  exact (List.dropWhile_sublist Char.isWhitespace).subset (List.mem_reverse.mp h1)

lemma parseRow_no_authority (row : Row) (m : List Link)
    (hmeta : row.meta = some m)
    (horg : m.find? (fun l => l.hovercardType == "organization") = none)
    (huser : m.find? (fun l => l.hovercardType == "user") = none) :
    Crawler.parseRow row = Except.error CrawlError.extractionError := by
  simp [Crawler.parseRow, hmeta, horg, huser, Crawler.authority]

lemma parseRow_nonneg (row : Row)
    (hb : ∀ b ∈ row.badges, '-' ∉ b.data)
    (repo : Repository) (h : Crawler.parseRow row = Except.ok repo) :
    0 ≤ repo.num_stars ∧ 0 ≤ repo.num_forks := by
  unfold Crawler.parseRow at h
  cases hmeta : row.meta with
  | none => simp [hmeta] at h
  | some m =>
    simp only [hmeta] at h
    cases hauth : Crawler.authority
        (m.find? (fun l => l.hovercardType == "organization"))
        (m.find? (fun l => l.hovercardType == "user")) with
    | error e => simp [hauth] at h
    | ok auth =>
      simp only [hauth] at h
      cases hrt : m.find? (fun l => l.hovercardType == "repository") with
      | none => simp [hrt] at h
      | some repoTag =>
        simp only [hrt] at h
        cases hbadges : row.badges with
        | nil => simp [hbadges] at h
        | cons b1 rest =>
          cases rest with
          | nil => simp [hbadges] at h
          | cons b2 rest2 =>
            cases rest2 with
            | cons b3 rest3 => simp [hbadges] at h
            | nil =>
              simp only [hbadges] at h
              cases hstar : locale.atoi (strip b1) with
              | error e => simp [hstar] at h
              | ok ns =>
                simp only [hstar] at h
                cases hfork : locale.atoi (strip b2) with
                | error e => simp [hfork] at h
                | ok nf =>
                  simp only [hfork] at h
                  cases h
                  have hb1 : '-' ∉ b1.data :=
                    hb b1 (by rw [hbadges]; exact List.mem_cons_self _ _)
                  have hb2 : '-' ∉ b2.data :=
                    hb b2 (by
                      rw [hbadges]
                      exact List.mem_cons_of_mem _ (List.mem_cons_self _ _))
                  constructor
                  · exact atoi_nonneg _ (fun hm => hb1 (mem_of_mem_strip _ _ hm)) _ hstar
                  · exact atoi_nonneg _ (fun hm => hb2 (mem_of_mem_strip _ _ hm)) _ hfork

lemma storeRows_closed (storage : Storage) (rows : List Row) :
    (Crawler.storeRows storage rows).1.closed = storage.closed := by
  induction rows generalizing storage with
  | nil => rfl
  | cons r rest ih =>
    unfold Crawler.storeRows
    cases h : Crawler.parseRow r with
    | error e => simp [h]
    | ok repo => simpa [h, Storage.store] using ih (storage.store repo)

lemma parse_closed (net : Net) (storage : Storage) (url : String) :
    (Crawler.parse net storage url).1.closed = storage.closed := by
  unfold Crawler.parse
  split
  · rfl
  next response hget =>
    split
    next s' e hrows =>
      have hsr := storeRows_closed storage response.text.rows
      rw [hrows] at hsr
      simpa using hsr
    next s' hrows =>
      have hsr := storeRows_closed storage response.text.rows
      rw [hrows] at hsr
      simpa using hsr

/-- A network that answers every URL with an HTTP 404 response carrying
an empty listing page. -/
def notFoundNet : Net := fun _ =>
  FetchResult.response 404 { rows := [], nextTag := none }

/-! Claim theorems. -/

/-- Claim C7: the locale-aware badge-number parsing maps "1,234" to 1234
and "0" to 0 — the thousands separator is stripped before integer
conversion. -/
theorem C7_atoi_separators :
    locale.atoi "1,234" = Except.ok 1234 ∧ locale.atoi "0" = Except.ok 0 := by
  constructor <;> rfl

/-- Claim C6 counterexample: initializing the Record Store against a
database that already holds the `repositories` table (a second run
against the same file) does not succeed — the unconditional
`create table` raises. -/
theorem C6_counterexample :
    Storage.init Database.empty
      = Except.ok { db := { tables := [Storage.TB], rows := [] }, closed := false }
    ∧ Storage.init { tables := [Storage.TB], rows := [] }
      = Except.error CrawlError.persistenceError := by
  constructor <;> rfl

/-- Claim C6 (amended): initialization opens the given database and
creates the fixed-schema table unconditionally — it succeeds exactly
when the table is not already present, and fails with an error on a
database that already has it (e.g., a second run against the same
file). -/
theorem C6_init_table_unconditional (db : Database) :
    (Storage.TB ∉ db.tables →
      Storage.init db = Except.ok
        { db := { db with tables := Storage.TB :: db.tables }, closed := false })
    ∧ (Storage.TB ∈ db.tables →
      Storage.init db = Except.error CrawlError.persistenceError) := by
  constructor <;> intro h <;> simp [Storage.init, Database.createTable, h]

/-- Claim C6 witness: on a fresh database the initialization succeeds and
creates the table. -/
theorem C6_init_table_unconditional_witness :
    Storage.init Database.empty
      = Except.ok { db := { tables := [Storage.TB], rows := [] }, closed := false } :=
  (C6_init_table_unconditional Database.empty).1 (by simp [Database.empty])

/-- Claim C1 counterexample: a retrieval answered with a non-success
HTTP status (404) does not fail with a network error — the response is
returned with its body and the page is processed normally. -/
theorem C1_counterexample :
    requests.get notFoundNet "https://example.org/dependents"
      = Except.ok { status_code := 404, text := { rows := [], nextTag := none } }
    ∧ Crawler.parse notFoundNet { db := Database.empty, closed := false }
        "https://example.org/dependents"
      = ({ db := Database.empty, closed := false }, Except.ok none) := by
  constructor <;> rfl

/-- Claim C1 (amended): the fetch fails with a network error exactly on
connection failure; an HTTP response is returned with its body as text
whatever its status code — the source never inspects the status and
never raises for a non-success response. -/
theorem C1_network_error_only_on_connection_failure (net : Net) (url : String) :
    (net url = FetchResult.failure →
      requests.get net url = Except.error CrawlError.networkError)
    ∧ (∀ code body, net url = FetchResult.response code body →
      requests.get net url = Except.ok { status_code := code, text := body }) := by
  refine ⟨fun h => ?_, fun code body h => ?_⟩ <;> simp [requests.get, h]

/-- Claim C1 witness: a failing connection yields the network error, and
a 404 response is passed through with its body. -/
theorem C1_network_error_only_on_connection_failure_witness :
    requests.get (fun _ => FetchResult.failure) "u"
      = Except.error CrawlError.networkError
    ∧ requests.get notFoundNet "u"
      = Except.ok { status_code := 404, text := { rows := [], nextTag := none } } :=
  ⟨(C1_network_error_only_on_connection_failure (fun _ => FetchResult.failure) "u").1 rfl,
   (C1_network_error_only_on_connection_failure notFoundNet "u").2 404
     { rows := [], nextTag := none } rfl⟩

/-- Claim C10: a "Next" control whose href attribute holds the empty
string is treated as a valid next page — the cursor becomes the empty
string, the loop guard still holds, and the loop performs another fetch
(shown on a network where that fetch fails, producing the network fault
instead of normal termination); only a missing control or a missing href
attribute ends pagination. -/
theorem C10_empty_href_continues :
    Crawler.afterCrawl (some { href := some "" }) = some ""
    ∧ Crawler.crawlable (some "") = true
    ∧ (∀ t : Option NextTag,
        Crawler.afterCrawl t = none ↔ (t = none ∨ t = some { href := none }))
    ∧ Crawler.crawl (fun _ => FetchResult.failure) 1 (some "")
        { db := Database.empty, closed := false }
      = ({ db := Database.empty, closed := false },
         Crawler.CrawlResult.fault CrawlError.networkError) := by
  refine ⟨rfl, rfl, fun t => ?_, rfl⟩
  cases t with
  | none => simp [Crawler.afterCrawl]
  | some tag =>
    cases htag : tag.href with
    | none =>
      cases tag
      simp_all [Crawler.afterCrawl]
    | some h =>
      cases tag
      simp_all [Crawler.afterCrawl]

/-- Claim C2: after all rows of a fetched page are processed, the
pagination determination yields no next page when the "Next" control is
absent or lacks a target reference, and otherwise yields exactly the
control's href value verbatim, with no modification; a successful parse
reports exactly this value as the next cursor. -/
theorem C2_pagination_verbatim (net : Net) (storage : Storage) (url : String)
    (code : Nat) (page : Page) (storage' : Storage)
    (hnet : net url = FetchResult.response code page)
    (hrows : Crawler.storeRows storage page.rows = (storage', none)) :
    (Crawler.parse net storage url).2 = Except.ok (Crawler.afterCrawl page.nextTag)
    ∧ ((page.nextTag = none ∨ page.nextTag = some { href := none }) →
        Crawler.afterCrawl page.nextTag = none)
    ∧ (∀ (t : NextTag) (h : String), page.nextTag = some t → t.href = some h →
        Crawler.afterCrawl page.nextTag = some h) := by
  refine ⟨?_, ?_, ?_⟩
  · simp [Crawler.parse, requests.get, hnet, hrows]
  · rintro (h | h) <;> simp [h, Crawler.afterCrawl]
  · intro t h ht hh
    simp [ht, hh, Crawler.afterCrawl]

/-- Claim C2 witness: a page whose "Next" control points at "/page2"
makes the parse return exactly "/page2" as the next cursor. -/
theorem C2_pagination_verbatim_witness :
    (Crawler.parse
        (fun _ => FetchResult.response 200
          { rows := [], nextTag := some { href := some "/page2" } })
        { db := Database.empty, closed := false } "u").2
      = Except.ok (Crawler.afterCrawl
          (Page.mk [] (some { href := some "/page2" })).nextTag)
    ∧ Crawler.afterCrawl (Page.mk [] (some { href := some "/page2" })).nextTag
      = some "/page2" := by
  have h := C2_pagination_verbatim
      (fun _ => FetchResult.response 200
        { rows := [], nextTag := some { href := some "/page2" } })
      { db := Database.empty, closed := false } "u" 200
      (Page.mk [] (some { href := some "/page2" }))
      { db := Database.empty, closed := false } rfl rfl
  exact ⟨h.1, h.2.2 { href := some "/page2" } "/page2" rfl rfl⟩

lemma parseRow_ok_authority (row : Row) (m : List Link) (repo : Repository)
    (hmeta : row.meta = some m)
    (hok : Crawler.parseRow row = Except.ok repo) :
    Crawler.authority (m.find? (fun l => l.hovercardType == "organization"))
        (m.find? (fun l => l.hovercardType == "user")) = Except.ok repo.authority := by
  unfold Crawler.parseRow at hok
  simp only [hmeta] at hok
  cases hauth : Crawler.authority
      (m.find? (fun l => l.hovercardType == "organization"))
      (m.find? (fun l => l.hovercardType == "user")) with
  | error e => simp [hauth] at hok
  | ok auth =>
    simp only [hauth] at hok
    cases hrt : m.find? (fun l => l.hovercardType == "repository") with
    | none => simp [hrt] at hok
    | some repoTag =>
      simp only [hrt] at hok
      cases hbadges : row.badges with
      | nil => simp [hbadges] at hok
      | cons b1 rest =>
        cases rest with
        | nil => simp [hbadges] at hok
        | cons b2 rest2 =>
          cases rest2 with
          | cons b3 rest3 => simp [hbadges] at hok
          | nil =>
            simp only [hbadges] at hok
            cases hstar : locale.atoi (strip b1) with
            | error e => simp [hstar] at hok
            | ok ns =>
              simp only [hstar] at hok
              cases hfork : locale.atoi (strip b2) with
              | error e => simp [hfork] at hok
              | ok nf =>
                simp only [hfork] at hok
                cases hok
                rfl

/-- Claim C5: for a row whose metadata block carries both an
organization-typed link and a user-typed link, a successful extraction
gives the record the organization link's text as authority —
organization is preferred over user. -/
theorem C5_organization_preferred (row : Row) (m : List Link) (o u : Link)
    (repo : Repository)
    (hmeta : row.meta = some m)
    (horg : m.find? (fun l => l.hovercardType == "organization") = some o)
    (huser : m.find? (fun l => l.hovercardType == "user") = some u)
    (hok : Crawler.parseRow row = Except.ok repo) :
    repo.authority = o.text := by
  have h := parseRow_ok_authority row m repo hmeta hok
  rw [horg, huser] at h
  simpa [Crawler.authority] using h.symm

/-- A listing row carrying both an organization link and a user link. -/
def bothLinksRow : Row :=
  { meta := some [{ hovercardType := "organization", text := "octo-org" },
                  { hovercardType := "user", text := "alice" },
                  { hovercardType := "repository", text := "repo" }],
    badges := ["1,234", "0"] }

/-- Claim C5 witness: on a concrete row carrying both links, the stored
authority is the organization's text. -/
theorem C5_organization_preferred_witness :
    (Repository.mk "octo-org" "repo" 1234 0).authority
      = (Link.mk "organization" "octo-org").text :=
  C5_organization_preferred bothLinksRow
    [{ hovercardType := "organization", text := "octo-org" },
     { hovercardType := "user", text := "alice" },
     { hovercardType := "repository", text := "repo" }]
    (Link.mk "organization" "octo-org") (Link.mk "user" "alice")
    (Repository.mk "octo-org" "repo" 1234 0) rfl rfl rfl rfl

/-- Claim C4: a row lacking both organization and user links makes
extraction fail with the extraction error and halts the page at that
row: the records of the rows before the fault are exactly the ones
appended to the store, and nothing after the fault point is stored. -/
theorem C4_malformed_row_halts (storage : Storage) (pre : List Row) (bad : Row)
    (post : List Row) (repos : List Repository) (m : List Link)
    (hmeta : bad.meta = some m)
    (horg : m.find? (fun l => l.hovercardType == "organization") = none)
    (huser : m.find? (fun l => l.hovercardType == "user") = none)
    (hpre : List.Forall₂ (fun r a => Crawler.parseRow r = Except.ok a) pre repos) :
    Crawler.storeRows storage (pre ++ bad :: post)
      = ({ storage with db := { storage.db with rows := storage.db.rows ++ repos } },
         some CrawlError.extractionError) := by
  induction hpre generalizing storage with
  | nil =>
    simp [Crawler.storeRows, parseRow_no_authority bad m hmeta horg huser]
  | cons hra hrest ih =>
    rw [List.cons_append]
    rename_i r a rest as
    rw [show Crawler.storeRows storage (r :: (rest ++ bad :: post))
        = Crawler.storeRows (storage.store a) (rest ++ bad :: post) by
      simp [Crawler.storeRows, hra]]
    rw [ih (storage.store a)]
    simp [Storage.store]

/-- A well-formed listing row owned by an organization. -/
def sampleRow : Row :=
  { meta := some [{ hovercardType := "organization", text := "octo" },
                  { hovercardType := "repository", text := "repo" }],
    badges := ["1,234", "0"] }

/-- The record extracted from `sampleRow`. -/
def sampleRepo : Repository :=
  { authority := "octo", name := "repo", num_stars := 1234, num_forks := 0 }

/-- A listing row whose metadata block has neither an organization link
nor a user link. -/
def malformedRow : Row := { meta := some [], badges := ["1", "2"] }

/-- Claim C4 witness: on a page of good row, malformed row, good row,
processing stores exactly the first record and halts with the
extraction error. -/
theorem C4_malformed_row_halts_witness :
    Crawler.storeRows { db := Database.empty, closed := false }
        ([sampleRow] ++ malformedRow :: [sampleRow])
      = ({ db := { tables := [], rows := [] ++ [sampleRepo] }, closed := false },
         some CrawlError.extractionError) :=
  C4_malformed_row_halts { db := Database.empty, closed := false }
    [sampleRow] malformedRow [sampleRow] [sampleRepo] [] rfl rfl rfl
    (List.Forall₂.cons rfl List.Forall₂.nil)

/-- A listing row whose star badge reads "-5". -/
def negStarRow : Row :=
  { meta := some [{ hovercardType := "organization", text := "octo" },
                  { hovercardType := "repository", text := "repo" }],
    badges := ["-5", "0"] }

/-- The record the extractor produces from `negStarRow`: its star count
is negative. -/
def negRepo : Repository :=
  { authority := "octo", name := "repo", num_stars := -5, num_forks := 0 }

/-- Claim C8 counterexample: a page row whose star badge text is "-5" is
extracted and stored as a record with a negative star count — no sign
check exists anywhere on the extraction or store path. -/
theorem C8_counterexample :
    Crawler.parseRow negStarRow = Except.ok negRepo
    ∧ Crawler.storeRows { db := Database.empty, closed := false } [negStarRow]
      = ({ db := { tables := [], rows := [negRepo] }, closed := false }, none)
    ∧ negRepo.num_stars < 0 :=
  ⟨rfl, rfl, by decide⟩

/-- Claim C8 (amended): extracted counts are the locale-parsed badge
values, so they are nonnegative exactly when the badge texts carry no
minus sign: every record extracted from such a row has nonnegative star
and fork counts, and every record in the store after processing such
rows is either one of the previously stored records or has nonnegative
counts.  (The code itself never enforces the sign, as the counterexample
shows.) -/
theorem C8_nonneg_when_badges_unsigned :
    (∀ (row : Row), (∀ b ∈ row.badges, '-' ∉ b.data) →
      ∀ (repo : Repository), Crawler.parseRow row = Except.ok repo →
        0 ≤ repo.num_stars ∧ 0 ≤ repo.num_forks)
    ∧ (∀ (storage : Storage) (rows : List Row),
        (∀ row ∈ rows, ∀ b ∈ row.badges, '-' ∉ b.data) →
        ∀ repo ∈ (Crawler.storeRows storage rows).1.db.rows,
          repo ∈ storage.db.rows ∨ (0 ≤ repo.num_stars ∧ 0 ≤ repo.num_forks)) := by
  constructor
  · exact fun row hb repo h => parseRow_nonneg row hb repo h
  · intro storage rows
    induction rows generalizing storage with
    | nil => exact fun _ repo hrepo => Or.inl hrepo
    | cons r rest ih =>
      intro hb repo hrepo
      cases hfr : Crawler.parseRow r with
      | error e =>
        simp only [Crawler.storeRows, hfr] at hrepo
        exact Or.inl hrepo
      | ok a =>
        simp only [Crawler.storeRows, hfr] at hrepo
        have h2 := ih (storage.store a)
            (fun row hm => hb row (List.mem_cons_of_mem _ hm)) repo hrepo
        rcases h2 with h2 | h2
        · rw [show (storage.store a).db.rows = storage.db.rows ++ [a] from rfl] at h2
          rcases List.mem_append.mp h2 with h3 | h3
          · exact Or.inl h3
          · have ha : repo = a := by simpa using h3
            subst ha
            exact Or.inr (parseRow_nonneg r
              (hb r (List.mem_cons_self _ _)) repo hfr)
        · exact Or.inr h2

/-- A listing row owned by a user, with a thousands separator in the
star badge and surrounding whitespace in the fork badge. -/
def unsignedRow : Row :=
  { meta := some [{ hovercardType := "user", text := "alice" },
                  { hovercardType := "repository", text := "proj" }],
    badges := ["1,234", " 56 "] }

/-- Claim C8 witness: a row with minus-free badge texts yields a record
with nonnegative counts. -/
theorem C8_nonneg_when_badges_unsigned_witness :
    0 ≤ (Repository.mk "alice" "proj" 1234 56).num_stars
    ∧ 0 ≤ (Repository.mk "alice" "proj" 1234 56).num_forks :=
  C8_nonneg_when_badges_unsigned.1 unsignedRow (by decide)
    (Repository.mk "alice" "proj" 1234 56) rfl

/-- Claim C9: a fault raised while processing a page is not caught by
the crawl loop — the loop's outcome is that very fault, reached without
any further iteration — and on this abnormal exit the storage's closed
flag is left exactly as it was: `Storage.close` runs only on the normal
pagination-exhaustion path. -/
theorem C9_fault_propagates_without_close (net : Net) :
    (∀ (fuel : Nat) (u : String) (storage s' : Storage) (e : CrawlError),
      Crawler.parse net storage u = (s', Except.error e) →
      Crawler.crawl net (fuel + 1) (some u) storage
        = (s', Crawler.CrawlResult.fault e))
    ∧ (∀ (fuel : Nat) (url : Option String) (storage s' : Storage) (e : CrawlError),
        Crawler.crawl net fuel url storage = (s', Crawler.CrawlResult.fault e) →
        s'.closed = storage.closed) := by
  constructor
  · intro fuel u storage s' e h
    simp only [Crawler.crawl, h]
  · intro fuel
    induction fuel with
    | zero =>
      intro url storage s' e h
      cases url <;> simp [Crawler.crawl] at h
    | succ n ih =>
      intro url storage s' e h
      cases url with
      | none => simp [Crawler.crawl] at h
      | some u =>
        simp only [Crawler.crawl] at h
        have hc := parse_closed net storage u
        cases hp : Crawler.parse net storage u with
        | mk s1 r =>
          rw [hp] at h hc
          cases r with
          | error e1 =>
            simp only [] at h
            have h' : s1 = s' ∧ Crawler.CrawlResult.fault e1
                = Crawler.CrawlResult.fault e := Prod.mk.injEq .. ▸ h
            rw [← h'.1]
            exact hc
          | ok next =>
            simp only [] at h
            exact (ih next s1 s' e h).trans hc

/-- Claim C9 witness: with a failing connection, a one-page run ends in
the network fault and the storage's closed flag stays false. -/
theorem C9_fault_propagates_without_close_witness :
    Crawler.crawl (fun _ => FetchResult.failure) 1 (some "u")
        { db := Database.empty, closed := false }
      = ({ db := Database.empty, closed := false },
         Crawler.CrawlResult.fault CrawlError.networkError)
    ∧ ({ db := Database.empty, closed := false } : Storage).closed
      = ({ db := Database.empty, closed := false } : Storage).closed := by
  have h1 := (C9_fault_propagates_without_close (fun _ => FetchResult.failure)).1
    0 "u" { db := Database.empty, closed := false }
    { db := Database.empty, closed := false } CrawlError.networkError rfl
  have h2 := (C9_fault_propagates_without_close (fun _ => FetchResult.failure)).2
    1 (some "u") { db := Database.empty, closed := false }
    { db := Database.empty, closed := false } CrawlError.networkError h1
  exact ⟨h1, h2⟩

lemma crawlTrace_cons (net : Net) (fuel : Nat) (url : Option String)
    (storage : Storage) :
    ∃ t, Crawler.crawlTrace net fuel url storage = url :: t :=
  ⟨_, by rw [Crawler.crawlTrace.eq_def]⟩

/-- Claim C3: a page whose pagination determination yields no next
cursor terminates the run — the loop reaches the done outcome right
after processing that page and the storage is closed; moreover, in every
run that reaches done, the cursor trace holds the value "none" exactly
once — as its final entry — so the cursor moves from a concrete URL to
none exactly once, and the final storage is closed. -/
theorem C3_termination_on_missing_next (net : Net) :
    (∀ (fuel : Nat) (u : String) (storage storage' : Storage),
      Crawler.parse net storage u = (storage', Except.ok none) →
      Crawler.crawl net (fuel + 1) (some u) storage
        = (storage'.close, Crawler.CrawlResult.done)
      ∧ (storage'.close).closed = true)
    ∧ (∀ (fuel : Nat) (url : Option String) (storage s' : Storage),
        Crawler.crawl net fuel url storage = (s', Crawler.CrawlResult.done) →
        (Crawler.crawlTrace net fuel url storage).countP Option.isNone = 1
        ∧ (Crawler.crawlTrace net fuel url storage).getLast? = some none
        ∧ s'.closed = true) := by
  constructor
  · intro fuel u storage storage' h
    constructor
    · simp only [Crawler.crawl, h]
    · rfl
  · intro fuel
    induction fuel with
    | zero =>
      intro url storage s' h
      cases url with
      | none =>
        simp only [Crawler.crawl] at h
        have h' : storage.close = s' := congrArg Prod.fst h
        subst h'
        refine ⟨by simp [Crawler.crawlTrace], by simp [Crawler.crawlTrace], rfl⟩
      | some u => simp [Crawler.crawl] at h
    | succ n ih =>
      intro url storage s' h
      cases url with
      | none =>
        simp only [Crawler.crawl] at h
        have h' : storage.close = s' := congrArg Prod.fst h
        subst h'
        refine ⟨by simp [Crawler.crawlTrace], by simp [Crawler.crawlTrace], rfl⟩
      | some u =>
        simp only [Crawler.crawl] at h
        cases hp : Crawler.parse net storage u with
        | mk s1 r =>
          rw [hp] at h
          cases r with
          | error e1 => simp at h
          | ok next =>
            simp only [] at h
            have htr : Crawler.crawlTrace net (n + 1) (some u) storage
                = some u :: Crawler.crawlTrace net n next s1 := by
              simp [Crawler.crawlTrace, hp]
            obtain ⟨hcount, hlast, hclosed⟩ := ih next s1 s' h
            obtain ⟨t, ht⟩ := crawlTrace_cons net n next s1
            refine ⟨?_, ?_, hclosed⟩
            · rw [htr, List.countP_cons, hcount]
              simp
            · rw [htr, ht]
              rw [ht] at hlast
              rw [List.getLast?_cons_cons]
              exact hlast

/-- Claim C3 witness: a run over a single page with no Next control
terminates with the done outcome and a closed storage, and its cursor
trace holds the value "none" exactly once, as its final entry. -/
theorem C3_termination_on_missing_next_witness :
    Crawler.crawl (fun _ => FetchResult.response 200 { rows := [], nextTag := none })
        1 (some "u") { db := Database.empty, closed := false }
      = (Storage.close { db := Database.empty, closed := false },
         Crawler.CrawlResult.done)
    ∧ (Storage.close { db := Database.empty, closed := false }).closed = true
    ∧ (Crawler.crawlTrace
        (fun _ => FetchResult.response 200 { rows := [], nextTag := none })
        1 (some "u") { db := Database.empty, closed := false }).countP
        Option.isNone = 1
    ∧ (Crawler.crawlTrace
        (fun _ => FetchResult.response 200 { rows := [], nextTag := none })
        1 (some "u") { db := Database.empty, closed := false }).getLast?
      = some none := by
  have h1 := (C3_termination_on_missing_next
      (fun _ => FetchResult.response 200 { rows := [], nextTag := none })).1
    0 "u" { db := Database.empty, closed := false }
    { db := Database.empty, closed := false } rfl
  have h2 := (C3_termination_on_missing_next
      (fun _ => FetchResult.response 200 { rows := [], nextTag := none })).2
    1 (some "u") { db := Database.empty, closed := false }
    (Storage.close { db := Database.empty, closed := false }) h1.1
  exact ⟨h1.1, h1.2, h2.1, h2.2.1⟩
